import Mathlib

/-!
Shallow embedding of the option-chain screener (`src/app.py`) together with
theorems checking the specification's claims against it.

Conventions of the embedding:
* Calendar dates are represented by their day ordinal (a natural number);
  this is order- and equality-isomorphic to Python's `date` values and to
  their ISO `"YYYY-MM-DD"` strings, and `strftime("%Y-%m-%d")` /
  `strptime(..., "%Y-%m-%d")` — mutually inverse bijections — become the
  identity.
* Prices and strikes are rationals; volumes are naturals.
* The external Kite provider (catalog download, LTP quote, candle history) is
  an explicit environment value; a call that would raise in Python is an
  `Except.error`.
* Python code that raises is modelled with `Except`; the string carried by an
  error names the Python exception.
-/

/-- Python `str.startswith`, on the character lists of the strings. -/
def starts_with (s p : String) : Bool := List.isPrefixOf p.data s.data

/-- Python `str.upper` (character-wise upper-casing). -/
def to_upper (s : String) : String := String.mk (s.data.map Char.toUpper)

/-- One row of the instrument catalog returned by `kite.instruments("NFO")`. -/
structure Instrument where
  tradingsymbol : String
  name : String
  instrument_type : String
  expiry : Nat
  strike : ℚ
  instrument_token : Nat
  deriving DecidableEq

/-- `WIDTH` from app.py line 15: the window is ATM ±2 strikes. -/
def WIDTH : Nat := 2

/-- `token_for_symbol` (app.py lines 286-290): first catalog row whose
trading symbol matches, if any. -/
def token_for_symbol (catalog : List Instrument) (tsym : String) : Option Nat :=
  (catalog.find? (fun inst => inst.tradingsymbol == tsym)).map Instrument.instrument_token

/-- The filter inside `next_expiry` (app.py lines 296-300): option contracts
of the requested underlying, by exact name or trading-symbol prefix match. -/
def chain_instruments (catalog : List Instrument) (symbol : String) : List Instrument :=
  let s := to_upper symbol
  catalog.filter (fun i =>
    (i.instrument_type == "PE" || i.instrument_type == "CE") &&
    (i.name == s || starts_with i.tradingsymbol s))

/-- `sorted({i["expiry"] for ...})` in `next_expiry`: distinct expiry dates,
ascending. -/
def expiry_dates (catalog : List Instrument) (symbol : String) : List Nat :=
  List.insertionSort (· ≤ ·) (((chain_instruments catalog symbol).map Instrument.expiry).dedup)

/-- `next_expiry` (app.py lines 293-304).  The loop `for d in dates: if d >=
today: return d` is `find?`; the final `return dates[-1]` raises `IndexError`
when `dates` is empty, modelled as an `Except.error`. -/
def next_expiry (catalog : List Instrument) (symbol : String) (today : Nat) :
    Except String Nat :=
  let dates := expiry_dates catalog symbol
  match dates.find? (fun d => decide (today ≤ d)) with
  | some d => Except.ok d
  | none =>
      match dates.getLast? with
      | some d => Except.ok d
      | none => Except.error "IndexError"

/-- `_matches` (app.py lines 310-317): option contracts of the underlying at
one expiry. -/
def _matches (catalog : List Instrument) (sym : String) (exp : Nat) : List Instrument :=
  let s := to_upper sym
  catalog.filter (fun i =>
    (i.instrument_type == "PE" || i.instrument_type == "CE") &&
    i.expiry == exp &&
    (i.name == s || starts_with i.tradingsymbol s))

/-- `sorted({i["strike"] for i in m})` in `strikes_from_chain`: the distinct
strikes of the matching contracts, ascending. -/
def chain_strikes (catalog : List Instrument) (sym : String) (exp_str : Nat) : List ℚ :=
  List.insertionSort (· ≤ ·) (((_matches catalog sym exp_str).map Instrument.strike).dedup)

/-- Python `min(strikes, key=lambda s: abs(s - spot))`: `min` keeps the
current element unless a strictly smaller key appears later, so the first
minimiser wins; on a sorted list that is the lowest tied strike. -/
def min_abs (spot : ℚ) : List ℚ → ℚ
  | [] => 0
  | [x] => x
  | x :: y :: t =>
      let m := min_abs spot (y :: t)
      if |x - spot| ≤ |m - spot| then x else m

/-- `strikes_from_chain` (app.py lines 319-327).  The slice
`strikes[max(0, i-WIDTH) : i+WIDTH+1]` is `take`/`drop`; note that on `Nat`
the truncated subtraction `i - WIDTH` already equals `max 0 (i - WIDTH)`. -/
def strikes_from_chain (catalog : List Instrument) (sym : String) (exp_str : Nat) (spot : ℚ) :
    List ℚ :=
  if _matches catalog sym exp_str = [] then []
  else
    let strikes := chain_strikes catalog sym exp_str
    let atm := min_abs spot strikes
    let i := strikes.indexOf atm
    (strikes.take (i + WIDTH + 1)).drop (i - WIDTH)

/-- `option_symbol` (app.py lines 329-338): trading symbol of the contract of
the given kind/strike/expiry, if listed. -/
def option_symbol (catalog : List Instrument) (sym : String) (exp_str : Nat) (strike : ℚ)
    (kind : String) : Option String :=
  (catalog.find? (fun i =>
      i.instrument_type == (if kind == "PUT" then "PE" else "CE") &&
      i.strike == strike &&
      i.expiry == exp_str &&
      (i.name == to_upper sym || starts_with i.tradingsymbol (to_upper sym)))).map
    Instrument.tradingsymbol

/-- One 5-minute candle as returned by `kite.historical_data`.  (`open` is a
Lean keyword, hence the field name `open_`.) -/
structure Candle where
  open_ : ℚ
  close : ℚ
  volume : Nat
  deriving DecidableEq

/-- `max(c["volume"] for c in cds)`; the generator is only evaluated on a
non-empty candle list, where the fold with seed 0 agrees with Python. -/
def max_volume (cds : List Candle) : Nat := (cds.map Candle.volume).foldr max 0

/-- `check_option` (app.py lines 341-360).  `candles` is the provider's
`historical_data`, indexed by instrument token; its error case models the
`except` branch. -/
def check_option (catalog : List Instrument) (candles : Nat → Except String (List Candle))
    (tsym : String) (is_put : Bool) : String :=
  match token_for_symbol catalog tsym with
  | none => "❌"
  | some token =>
      match candles token with
      | Except.error _ => "❌"
      | Except.ok cds =>
          match cds.getLast? with
          | none => "❌"
          | some latest =>
              if latest.volume ≠ max_volume cds then "❌"
              else
                let green := decide (latest.close > latest.open_)
                let red := decide (latest.close < latest.open_)
                if (is_put && green) || (!is_put && red) then "✅" else "❌"

/-- One persisted alert record (the dict built in `webhook`). -/
structure Alert where
  symbol : String
  time : String
  ltp : String
  put_result : String
  call_result : String
  deriving DecidableEq

/-- `save_alert` (app.py lines 373-385): the durable file content after the
call, given its previous content `hist` and today's date string.  Records not
from today are filtered out before the new record is appended and the file is
rewritten. -/
def save_alert (hist : List Alert) (td : String) (a : Alert) : List Alert :=
  (hist.filter (fun x => starts_with x.time td)) ++ [a]

/-- The module-level catalog cache (`INSTRUMENTS`, `INSTR_DATE`,
app.py line 276). -/
structure CatalogCache where
  INSTRUMENTS : Option (List Instrument)
  INSTR_DATE : Option Nat
  deriving DecidableEq

/-- `get_instruments` (app.py lines 277-283): `fetched` is the catalog a
refresh would download.  Returns the catalog handed to the caller and the
cache state after the call. -/
def get_instruments (st : CatalogCache) (today : Nat) (fetched : List Instrument) :
    List Instrument × CatalogCache :=
  if st.INSTRUMENTS = none ∨ st.INSTR_DATE ≠ some today then
    (fetched, ⟨some fetched, some today⟩)
  else
    (st.INSTRUMENTS.getD [], st)

/-- A JSON value as it can appear in the webhook payload's `trigger_time`
field.  `jlist true` stands for any non-empty list/object (truthy,
non-convertible), `jlist false` for an empty one. -/
inductive JVal where
  | jnull
  | jbool (b : Bool)
  | jint (i : Int)
  | jstr (s : String)
  | jlist (nonempty : Bool)
  deriving DecidableEq

/-- Python truthiness, as tested by `if trg:`. -/
def truthy : JVal → Bool
  | JVal.jnull => false
  | JVal.jbool b => b
  | JVal.jint i => i != 0
  | JVal.jstr s => s != ""
  | JVal.jlist ne => ne

/-- Decimal value of a digit string. -/
def digits_to_nat (l : List Char) : Nat := l.foldl (fun n c => 10 * n + (c.toNat - 48)) 0

/-- Python `int(str)` on its relevant fragment: an optional sign followed by
one or more digits; anything else is a `ValueError` (`none`). -/
def parse_int_chars : List Char → Option Int
  | [] => none
  | '-' :: rest =>
      if rest.isEmpty then none
      else if rest.all Char.isDigit then some (-(digits_to_nat rest : Int)) else none
  | '+' :: rest =>
      if rest.isEmpty then none
      else if rest.all Char.isDigit then some ((digits_to_nat rest : Int)) else none
  | l => if l.all Char.isDigit then some ((digits_to_nat l : Int)) else none

/-- Python `int(trg)`: `none` models a `ValueError`/`TypeError`. -/
def py_int : JVal → Option Int
  | JVal.jint i => some i
  | JVal.jbool b => some (if b then 1 else 0)
  | JVal.jstr s => parse_int_chars s.data
  | JVal.jnull => none
  | JVal.jlist _ => none

/-- Python `trg.rstrip("Z")`: remove every trailing `'Z'`. -/
def rstrip_z (s : String) : String :=
  String.mk ((s.data.reverse.dropWhile (fun c => c == 'Z')).reverse)

/-- Which branch of the trigger-time parser produced the event time.  The
payload carried by `fromEpoch`/`fromIso` is the resulting instant in epoch
seconds (time-zone conversion to IST is a bijection on instants).  `raised`
marks an exception escaping both handlers: the request errors out. -/
inductive TrigTime where
  | fromEpoch (sec : Int)
  | fromIso (sec : Int)
  | nowIst
  | raised
  deriving DecidableEq

/-- Epoch second of `datetime.min` (0001-01-01T00:00:00 UTC): below it the
year is < 1 and `datetime.fromtimestamp(·, UTC)` raises `ValueError`. -/
def MIN_TS : Int := -62135596800

/-- Epoch second of `datetime.max.replace(microsecond=0)`
(9999-12-31T23:59:59 UTC): above it the year is > 9999 and
`datetime.fromtimestamp(·, UTC)` raises `ValueError`. -/
def MAX_TS : Int := 253402300799

/-- IST is UTC+05:30; `.astimezone(IST)` adds this many seconds to the wall
clock, so epochs in the last 19800 seconds of the `datetime` range overflow
past year 9999 during the IST conversion, raising `OverflowError`. -/
def IST_OFFSET : Int := 19800

/-- First epoch second whose UTC year (-2147481748) still fits the
platform's 32-bit `tm_year`; below it `gmtime` fails and
`datetime.fromtimestamp` raises `OSError` instead of `ValueError`
(CPython on 64-bit Linux). -/
def TM_MIN : Int := -67768040609740800

/-- Last epoch second whose UTC year (2147485547) still fits the platform's
32-bit `tm_year`; above it `gmtime` fails (`OSError`), and past `2^63 - 1`
the `time_t` conversion itself raises `OverflowError` (CPython on 64-bit
Linux). -/
def TM_MAX : Int := 67768036191676799

/-- How `datetime.fromtimestamp(n, UTC).astimezone(IST)` ends. -/
inductive TsOutcome where
  | ok
  | value_error
  | uncaught
  deriving DecidableEq

/-- Outcome of `datetime.fromtimestamp(n, UTC).astimezone(IST)` (app.py
line 204) on CPython/64-bit Linux: an aware IST datetime for the instant `n`
when the year stays within 1..9999 even after the +05:30 shift
(`TsOutcome.ok`); a `ValueError` — caught by the surrounding
`except (ValueError, TypeError)` — when `gmtime` succeeds but the year falls
outside 1..9999 (`TsOutcome.value_error`); and an `OverflowError`/`OSError`
— caught by neither handler — for the +05:30 overflow sliver just below
`MAX_TS` and for values beyond the `gmtime`/`time_t` limits
(`TsOutcome.uncaught`). -/
def epoch_to_ist (n : Int) : TsOutcome :=
  if n < MIN_TS then
    (if TM_MIN ≤ n then TsOutcome.value_error else TsOutcome.uncaught)
  else if n ≤ MAX_TS - IST_OFFSET then TsOutcome.ok
  else if n ≤ MAX_TS then TsOutcome.uncaught
  else if n ≤ TM_MAX then TsOutcome.value_error
  else TsOutcome.uncaught

/-- The inner `except (ValueError, TypeError)` handler (app.py lines
205-211), reached when `int(trg)` raises or when `fromtimestamp` raises
`ValueError`: retry the original value as ISO-8601.  A non-string value
fails `trg.rstrip("Z")` with `AttributeError`, and every failure inside this
handler is caught by its bare `except`, falling back to the current IST
time. -/
def iso_fallback (iso : String → Option Int) : JVal → TrigTime
  | JVal.jstr s =>
      match iso (rstrip_z s) with
      | some t => TrigTime.fromIso t
      | none => TrigTime.nowIst
  | _ => TrigTime.nowIst

/-- The trigger-time block of `webhook` (app.py lines 201-213).  `iso`
models `datetime.fromisoformat` (plus the naive-means-UTC fixup and the IST
conversion), returning the parsed instant or `none` for a `ValueError`.  On
a truthy value, `int(trg)` success feeds
`datetime.fromtimestamp(·, UTC).astimezone(IST)`, classified by
`epoch_to_ist`: in-range values become the event time, a `ValueError` joins
the `int()`-failure path into `iso_fallback`, and an
`OverflowError`/`OSError` escapes both handlers (`TrigTime.raised`, an
error response). -/
def parse_trigger_time (iso : String → Option Int) (trg : Option JVal) : TrigTime :=
  match trg with
  | none => TrigTime.nowIst
  | some v =>
      if truthy v then
        match py_int v with
        | some n =>
            match epoch_to_ist n with
            | TsOutcome.ok => TrigTime.fromEpoch n
            | TsOutcome.value_error => iso_fallback iso v
            | TsOutcome.uncaught => TrigTime.raised
        | none => iso_fallback iso v
      else TrigTime.nowIst

/-- The Kite-provider environment a webhook call runs against. -/
structure KiteEnv where
  catalog : Except String (List Instrument)
  ltp : Except String ℚ
  candles : Nat → Except String (List Candle)

/-- Everything observable about one webhook call: the records passed to
`save_alert`, the Telegram message sent (if any), and the HTTP response. -/
structure WebhookResult where
  saved : List Alert
  telegram : Option String
  response : String × Nat
  deriving DecidableEq

/-- `f"₹{ltp:.2f}"`; the two-decimal float formatting is abstracted to the
exact rational rendered by `toString` (no claim depends on the digits). -/
def fmt_money (q : ℚ) : String := "₹" ++ toString q

/-- One entry of `put_tags`/`call_tags` (app.py lines 224-229):
`f"{st}{check_option(pe, is_put) if pe else '❌'}"`. -/
def leg_tag (catalog : List Instrument) (candles : Nat → Except String (List Candle))
    (sym : String) (expiry : Nat) (st : ℚ) (kind : String) (is_put : Bool) : String :=
  match option_symbol catalog sym expiry st kind with
  | some tsym => toString st ++ check_option catalog candles tsym is_put
  | none => toString st ++ "❌"

/-- Does the string contain the pattern as a contiguous run of characters?
(Python's `pat in s`, used as `"✅" in put_result`.) -/
def mark_in (pat : List Char) : List Char → Bool
  | [] => pat.isEmpty
  | c :: t => List.isPrefixOf pat (c :: t) || mark_in pat t

/-- `"✅" in s`. -/
def has_check (s : String) : Bool := mark_in "✅".data s.data

/-- The Telegram message body built in `webhook` (app.py lines 244-251);
Markdown backticks are omitted, the informative content is kept. -/
def telegram_msg (a : Alert) : String :=
  "*New Signal* 📊\nSymbol: " ++ a.symbol ++ "\nTime  : " ++ a.time ++
  "\nLTP   : " ++ a.ltp ++ "\nPUT   : " ++ a.put_result ++ "\nCALL  : " ++ a.call_result

/-- The webhook handler (app.py lines 195-257).  `time_str` is the formatted
trigger time, `today` the current IST date.  Any exception inside the big
`try` (LTP fetch, catalog download, the `IndexError` of `next_expiry`)
reaches the `except` branch: HTTP 500, nothing saved, nothing sent.  On the
success path one record is saved and the Telegram message is sent exactly
when a ✅ appears in either result string. -/
def webhook (env : KiteEnv) (symbol? : Option String) (time_str : String) (today : Nat) :
    WebhookResult :=
  match symbol? with
  | none => ⟨[], none, ("Missing symbol", 400)⟩
  | some symbol =>
      match env.ltp with
      | Except.error _ => ⟨[], none, ("Error", 500)⟩
      | Except.ok ltp =>
          match env.catalog with
          | Except.error _ => ⟨[], none, ("Error", 500)⟩
          | Except.ok catalog =>
              match next_expiry catalog symbol today with
              | Except.error _ => ⟨[], none, ("Error", 500)⟩
              | Except.ok expiry =>
                  let strikes := strikes_from_chain catalog symbol expiry ltp
                  let put_result :=
                    if strikes = [] then "No option chain"
                    else String.intercalate "  "
                      (strikes.map (fun st => leg_tag catalog env.candles symbol expiry st "PUT" true))
                  let call_result :=
                    if strikes = [] then "No option chain"
                    else String.intercalate "  "
                      (strikes.map (fun st => leg_tag catalog env.candles symbol expiry st "CALL" false))
                  let alert : Alert :=
                    ⟨to_upper symbol, time_str, fmt_money ltp, put_result, call_result⟩
                  let sent :=
                    if has_check put_result || has_check call_result
                    then some (telegram_msg alert) else none
                  ⟨[alert], sent, ("OK", 200)⟩

/-- Modelled from the spec: the Implied Volatility Solver of §4.6 is absent
from `src/` (only the spec describes it).  Bisection step: narrow the bracket
toward the volatility whose model price matches the observed premium
(the model price is increasing in volatility); after the last iteration the
midpoint of the current bracket is returned. -/
def bisect (price : ℚ → ℚ) (observed : ℚ) : Nat → ℚ → ℚ → ℚ
  | 0, lo, hi => (lo + hi) / 2
  | n + 1, lo, hi =>
      let mid := (lo + hi) / 2
      if observed < price mid then bisect price observed n lo mid
      else bisect price observed n mid hi

/-- Modelled from the spec: `implied_vol` (§4.6).  `model` is the closed-form
pricing function (spot, strike, time, rate, dividend yield, volatility, sign
↦ price).  Returns 0 immediately when `time_to_expiry_years ≤ 0`; otherwise
bisects volatility over the fixed bracket `[1e-6, 5]` for a fixed 100
iterations and returns the final midpoint. -/
def implied_vol (model : ℚ → ℚ → ℚ → ℚ → ℚ → ℚ → Int → ℚ)
    (observed_price spot strike time_to_expiry_years rate dividend_yield : ℚ)
    (sign : Int) : ℚ :=
  if time_to_expiry_years ≤ 0 then 0
  else
    bisect (fun v => model spot strike time_to_expiry_years rate dividend_yield v sign)
      observed_price 100 (1 / 1000000) 5

/-! ### Concrete fixtures used by witnesses and counterexamples -/

/-- A listed ACME put at strike 100 expiring on day 20261020. -/
def acme_pe : Instrument := ⟨"ACMEPE100", "ACME", "PE", 20261020, 100, 7⟩

/-- A listed ACME call at strike 105, same expiry. -/
def acme_ce : Instrument := ⟨"ACMECE105", "ACME", "CE", 20261020, 105, 8⟩

/-- A listed ACME put at strike 110, same expiry. -/
def acme_pe2 : Instrument := ⟨"ACMEPE110", "ACME", "PE", 20261020, 110, 9⟩

/-- A contract of an unrelated underlying. -/
def xyz_pe : Instrument := ⟨"XYZPE100", "XYZ", "PE", 20261020, 100, 11⟩

/-- A three-strike ACME catalog. -/
def demo_catalog : List Instrument := [acme_pe2, acme_pe, acme_ce]

/-- Session candles: the latest bar has the maximal volume and is green. -/
def demo_candles : List Candle := [⟨10, 9, 50⟩, ⟨10, 12, 120⟩]

/-- An alert record dated 2026-10-11. -/
def old_alert : Alert := ⟨"ACME", "2026-10-11 10:00:00", "₹100", "100❌", "100❌"⟩

/-- An alert record dated 2026-10-12. -/
def new_alert : Alert := ⟨"ACME", "2026-10-12 10:05:00", "₹101", "100❌", "100❌"⟩

/-- A second alert record dated 2026-10-12. -/
def new_alert2 : Alert := ⟨"ACME", "2026-10-12 11:00:00", "₹102", "100❌", "100❌"⟩

/-- An environment whose catalog download fails. -/
def catalog_down_env : KiteEnv :=
  ⟨Except.error "CatalogUnavailable", Except.ok 100, fun _ => Except.error "down"⟩

/-- A healthy single-strike environment whose candle fetches all fail, so
every leg classifies as ❌. -/
def no_match_env : KiteEnv :=
  ⟨Except.ok [acme_pe], Except.ok 101, fun _ => Except.error "down"⟩

/-! ### Theorems -/

/-- C8: on every call, `get_instruments` performs a full refresh and replaces
the cached set exactly when no cached set exists or the cached fetch date
differs from the current trading date; otherwise it returns the cached set
with the cache unchanged.  Consequently a second call on the same day never
refreshes again: at most one refresh per calendar day. -/
theorem C8_catalog_cache_policy (st : CatalogCache) (today : Nat)
    (fetched fetched2 : List Instrument) :
    ((st.INSTRUMENTS = none ∨ st.INSTR_DATE ≠ some today) →
        get_instruments st today fetched = (fetched, ⟨some fetched, some today⟩)) ∧
    (∀ l, st.INSTRUMENTS = some l → st.INSTR_DATE = some today →
        get_instruments st today fetched = (l, st)) ∧
    get_instruments (get_instruments st today fetched).2 today fetched2 =
      ((get_instruments st today fetched).1, (get_instruments st today fetched).2) := by
  refine ⟨?_, ?_, ?_⟩
  · intro h
    simp [get_instruments, h]
  · intro l h1 h2
    simp [get_instruments, h1, h2]
  · by_cases h : st.INSTRUMENTS = none ∨ st.INSTR_DATE ≠ some today
    · simp [get_instruments, h]
    · push_neg at h
      obtain ⟨h1, h2⟩ := h
      obtain ⟨l, hl⟩ := Option.ne_none_iff_exists'.1 h1
      simp [get_instruments, hl, h2]

/-- Witness for C8 at a cold cache: the first call of the day refreshes. -/
theorem C8_catalog_cache_policy_witness :
    get_instruments ⟨none, none⟩ 20261012 [acme_pe] =
      ([acme_pe], ⟨some [acme_pe], some 20261012⟩) :=
  (C8_catalog_cache_policy ⟨none, none⟩ 20261012 [acme_pe] []).1 (Or.inl rfl)

/-- Helper for C9: `bisect` always returns the midpoint of a sub-bracket of
the initial bracket. -/
theorem bisect_returns_midpoint (price : ℚ → ℚ) (observed : ℚ) :
    ∀ (n : Nat) (lo hi : ℚ), lo ≤ hi →
      ∃ l h, lo ≤ l ∧ l ≤ h ∧ h ≤ hi ∧ bisect price observed n lo hi = (l + h) / 2 := by
  intro n
  induction n with
  | zero =>
      intro lo hi hle
      exact ⟨lo, hi, le_refl lo, hle, le_refl hi, rfl⟩
  | succ n ih =>
      intro lo hi hle
      have hmid1 : lo ≤ (lo + hi) / 2 := by linarith
      have hmid2 : (lo + hi) / 2 ≤ hi := by linarith
      by_cases hc : observed < price ((lo + hi) / 2)
      · obtain ⟨l, h, h1, h2, h3, h4⟩ := ih lo ((lo + hi) / 2) hmid1
        exact ⟨l, h, h1, h2, le_trans h3 hmid2, by simpa [bisect, hc] using h4⟩
      · obtain ⟨l, h, h1, h2, h3, h4⟩ := ih ((lo + hi) / 2) hi hmid2
        exact ⟨l, h, le_trans hmid1 h1, h2, h3, by simpa [bisect, hc] using h4⟩

/-- C9: the implied-volatility solver returns 0 immediately when
`time_to_expiry_years ≤ 0`; for positive time it is total (the Lean function
never fails) and, at iteration exhaustion, returns the midpoint of the final
sub-bracket of the fixed initial bracket `[1e-6, 5]`. -/
theorem C9_implied_vol_policy (model : ℚ → ℚ → ℚ → ℚ → ℚ → ℚ → Int → ℚ)
    (observed_price spot strike t rate dividend_yield : ℚ) (sign : Int) :
    (t ≤ 0 → implied_vol model observed_price spot strike t rate dividend_yield sign = 0) ∧
    (0 < t → ∃ l h, 1 / 1000000 ≤ l ∧ l ≤ h ∧ h ≤ 5 ∧
        implied_vol model observed_price spot strike t rate dividend_yield sign =
          (l + h) / 2) := by
  constructor
  · intro h
    simp [implied_vol, h]
  · intro h
    have hnot : ¬ t ≤ 0 := not_le.2 h
    have hbr : (1 : ℚ) / 1000000 ≤ 5 := by norm_num
    obtain ⟨l, hh, h1, h2, h3, h4⟩ :=
      bisect_returns_midpoint
        (fun v => model spot strike t rate dividend_yield v sign) observed_price
        100 (1 / 1000000) 5 hbr
    exact ⟨l, hh, h1, h2, h3, by simpa [implied_vol, hnot] using h4⟩

/-- Witness for C9 at `t = 0`: no solve is attempted. -/
theorem C9_implied_vol_policy_witness :
    implied_vol (fun _ _ _ _ _ _ _ => 0) 1 100 100 0 0 0 1 = 0 :=
  (C9_implied_vol_policy (fun _ _ _ _ _ _ _ => 0) 1 100 100 0 0 0 1).1 (le_refl 0)

/-- C10 counterexample: `trigger_time = 0` is integer-convertible, yet the
handler's truthiness test `if trg:` treats it as absent and falls back to the
current IST time instead of interpreting it as epoch second 0. -/
theorem C10_counterexample :
    py_int (JVal.jint 0) = some 0 ∧
    parse_trigger_time (fun _ => none) (some (JVal.jint 0)) = TrigTime.nowIst := by
  constructor
  · rfl
  · rfl

/-- C10 as amended: an absent value and any falsy value (`0`, `""`,
`false`, `null`, `[]`) fall back to the current IST time; a truthy
integer-convertible value is interpreted as UTC epoch-seconds only when
`fromtimestamp(·, UTC).astimezone(IST)` succeeds (years 1..9999 after the
+05:30 shift); when that conversion raises `ValueError` (year out of range,
e.g. a millisecond-epoch value) the handler falls through to the ISO branch
— a string is retried as ISO-8601, anything else falls back to current IST —
exactly as it does when `int(trg)` itself fails; but when the conversion
raises `OverflowError`/`OSError` (the +05:30 sliver below `MAX_TS`, or
values beyond the platform `gmtime`/`time_t` limits such as `2^62`) the
exception escapes both handlers and the request errors out, so the handling
is *not* total.  The last two conjuncts pin the two new refuting inputs:
the millisecond epoch `1700000000000` silently becomes "now", and
`2^62 = 4611686018427387904` raises. -/
theorem C10_trigger_amended (iso : String → Option Int) :
    (parse_trigger_time iso none = TrigTime.nowIst) ∧
    (∀ v, truthy v = false → parse_trigger_time iso (some v) = TrigTime.nowIst) ∧
    (∀ v n, truthy v = true → py_int v = some n → epoch_to_ist n = TsOutcome.ok →
        parse_trigger_time iso (some v) = TrigTime.fromEpoch n) ∧
    (∀ v n, truthy v = true → py_int v = some n →
        epoch_to_ist n = TsOutcome.value_error →
        parse_trigger_time iso (some v) = iso_fallback iso v) ∧
    (∀ v n, truthy v = true → py_int v = some n →
        epoch_to_ist n = TsOutcome.uncaught →
        parse_trigger_time iso (some v) = TrigTime.raised) ∧
    (∀ v, truthy v = true → py_int v = none →
        parse_trigger_time iso (some v) = iso_fallback iso v) ∧
    (∀ s t, iso (rstrip_z s) = some t →
        iso_fallback iso (JVal.jstr s) = TrigTime.fromIso t) ∧
    (∀ s, iso (rstrip_z s) = none → iso_fallback iso (JVal.jstr s) = TrigTime.nowIst) ∧
    (∀ ne, iso_fallback iso (JVal.jlist ne) = TrigTime.nowIst) ∧
    (parse_trigger_time iso (some (JVal.jint 1700000000000)) = TrigTime.nowIst) ∧
    (parse_trigger_time iso (some (JVal.jint 4611686018427387904)) =
      TrigTime.raised) := by
  refine ⟨rfl, ?_, ?_, ?_, ?_, ?_, ?_, ?_, ?_, rfl, rfl⟩
  · intro v hv
    simp [parse_trigger_time, hv]
  · intro v n hv hn hok
    simp [parse_trigger_time, hv, hn, hok]
  · intro v n hv hn hve
    simp [parse_trigger_time, hv, hn, hve]
  · intro v n hv hn hun
    simp [parse_trigger_time, hv, hn, hun]
  · intro v hv hn
    simp [parse_trigger_time, hv, hn]
  · intro s t hiso
    simp [iso_fallback, hiso]
  · intro s hiso
    simp [iso_fallback, hiso]
  · intro ne
    rfl

/-- Witness for C10 (amended): a truthy present-day epoch value is parsed as
epoch seconds. -/
theorem C10_trigger_amended_witness :
    parse_trigger_time (fun _ => none) (some (JVal.jint 1760243400)) =
      TrigTime.fromEpoch 1760243400 :=
  (C10_trigger_amended (fun _ => none)).2.2.1 (JVal.jint 1760243400) 1760243400 rfl rfl rfl

/-- C5 counterexample: `save_alert` does *not* preserve records from earlier
trading days — a record dated 2026-10-11 is dropped from the durable store
when a record is appended on 2026-10-12. -/
theorem C5_counterexample :
    old_alert ∈ [old_alert] ∧
    old_alert ∉ save_alert [old_alert] "2026-10-12" new_alert := by
  constructor
  · exact List.mem_singleton.2 rfl
  · decide

/-- C5 as amended: `save_alert` appends the new record and preserves exactly
the previously-persisted records whose time stamp starts with today's date;
records from any other day are removed from the durable store (only the
current trading day's records are retained). -/
theorem C5_save_alert_amended (hist : List Alert) (td : String) (a : Alert) :
    a ∈ save_alert hist td a ∧
    (∀ x, x ∈ hist → starts_with x.time td = true → x ∈ save_alert hist td a) ∧
    (∀ x, x ∈ save_alert hist td a → x = a ∨ (x ∈ hist ∧ starts_with x.time td = true)) ∧
    (∀ x, x ∈ hist → starts_with x.time td = false → x ≠ a →
        x ∉ save_alert hist td a) := by
  refine ⟨?_, ?_, ?_, ?_⟩
  · simp [save_alert]
  · intro x hx hs
    simp [save_alert, List.mem_filter, hx, hs]
  · intro x hx
    rcases List.mem_append.1 hx with hm | hm
    · exact Or.inr ⟨(List.mem_filter.1 hm).1, (List.mem_filter.1 hm).2⟩
    · exact Or.inl (List.mem_singleton.1 hm)
  · intro x hx hs hne hmem
    rcases List.mem_append.1 hmem with hm | hm
    · have := (List.mem_filter.1 hm).2
      simp [hs] at this
    · exact hne (List.mem_singleton.1 hm)

/-- Witness for C5 (amended): a same-day record survives the append. -/
theorem C5_save_alert_amended_witness :
    new_alert ∈ save_alert [new_alert] "2026-10-12" new_alert2 :=
  (C5_save_alert_amended [new_alert] "2026-10-12" new_alert2).2.1 new_alert
    (List.mem_singleton.2 rfl) (by decide)

/-- C2: on an underlying matching no catalog instrument, `strikes_from_chain`
indeed returns the empty list without raising, but `next_expiry` does not
signal a first-class NoChain outcome: its `dates[-1]` indexes an empty list
and raises `IndexError` (which the webhook's catch-all turns into an HTTP 500
with no record saved). -/
theorem C2_unmatched_underlying :
    chain_instruments [xyz_pe] "ACME" = [] ∧
    next_expiry [xyz_pe] "ACME" 20261012 = Except.error "IndexError" ∧
    _matches [xyz_pe] "ACME" 20261020 = [] ∧
    strikes_from_chain [xyz_pe] "ACME" 20261020 101 = [] := by
  refine ⟨by decide, rfl, by decide, rfl⟩

/-- C6 counterexample: when the catalog download fails
(`CatalogUnavailable`), the webhook persists *no* alert record for the event
— it returns HTTP 500 with nothing saved and nothing sent. -/
theorem C6_counterexample :
    (webhook catalog_down_env (some "ACME") "2026-10-12 10:00:00" 20261012).saved = [] ∧
    (webhook catalog_down_env (some "ACME") "2026-10-12 10:00:00" 20261012).response =
      ("Error", 500) := by
  exact ⟨rfl, rfl⟩

/-- C6 as amended: a failure to obtain catalog data aborts the event with an
HTTP 500 response, persisting no alert record and sending no notification;
the event is dropped with no trace in the ledger. -/
theorem C6_catalog_failure_amended (env : KiteEnv) (sym time_str : String) (today : Nat)
    (e : String) (h : env.catalog = Except.error e) :
    webhook env (some sym) time_str today = ⟨[], none, ("Error", 500)⟩ := by
  unfold webhook
  cases hl : env.ltp with
  | error msg => rfl
  | ok ltp => rw [h]

/-- Witness for C6 (amended) at the concrete failing environment. -/
theorem C6_catalog_failure_amended_witness :
    webhook catalog_down_env (some "ACME") "2026-10-12 10:00:00" 20261012 =
      ⟨[], none, ("Error", 500)⟩ :=
  C6_catalog_failure_amended catalog_down_env "ACME" "2026-10-12 10:00:00" 20261012
    "CatalogUnavailable" rfl

/-- C3: `check_option` yields ❌ when the symbol has no lookup token, the
fetch fails, no candles come back, or the latest candle's volume is not the
session maximum; otherwise its output is one of ✅/❌ and it is ✅ exactly
when (put and the latest candle is green) or (call and the latest candle is
red). -/
theorem C3_check_option_rule (catalog : List Instrument)
    (candles : Nat → Except String (List Candle)) (tsym : String) :
    (token_for_symbol catalog tsym = none →
        ∀ is_put, check_option catalog candles tsym is_put = "❌") ∧
    (∀ token, token_for_symbol catalog tsym = some token →
      ((∀ e, candles token = Except.error e →
          ∀ is_put, check_option catalog candles tsym is_put = "❌") ∧
       (candles token = Except.ok [] →
          ∀ is_put, check_option catalog candles tsym is_put = "❌") ∧
       (∀ cds latest, candles token = Except.ok cds → cds.getLast? = some latest →
         ((latest.volume ≠ max_volume cds →
             ∀ is_put, check_option catalog candles tsym is_put = "❌") ∧
          (latest.volume = max_volume cds →
             ∀ is_put,
               (check_option catalog candles tsym is_put = "✅" ∨
                check_option catalog candles tsym is_put = "❌") ∧
               (check_option catalog candles tsym is_put = "✅" ↔
                 (is_put = true ∧ latest.close > latest.open_) ∨
                 (is_put = false ∧ latest.close < latest.open_))))))) := by
  refine ⟨?_, ?_⟩
  · intro h is_put
    simp [check_option, h]
  · intro token htok
    refine ⟨?_, ?_, ?_⟩
    · intro e he is_put
      simp [check_option, htok, he]
    · intro he is_put
      simp [check_option, htok, he]
    · intro cds latest hcds hlast
      refine ⟨?_, ?_⟩
      · intro hvol is_put
        simp [check_option, htok, hcds, hlast, hvol]
      · intro hvol is_put
        have hco : check_option catalog candles tsym is_put =
            (if (is_put && decide (latest.close > latest.open_)) ||
                (!is_put && decide (latest.close < latest.open_)) then "✅" else "❌") := by
          simp [check_option, htok, hcds, hlast, hvol]
        rw [hco]
        constructor
        · split
          · exact Or.inl rfl
          · exact Or.inr rfl
        · cases is_put with
          | true =>
              by_cases hg : latest.close > latest.open_
              · simp [hg]
              · simp [hg]
          | false =>
              by_cases hr : latest.close < latest.open_
              · simp [hr]
              · simp [hr]

/-- Witness for C3: latest candle with maximal volume and green body on a put
leg classifies as ✅ (the spec's own scenario). -/
theorem C3_check_option_rule_witness :
    check_option [acme_pe] (fun _ => Except.ok demo_candles) "ACMEPE100" true = "✅" := by
  have h := (((C3_check_option_rule [acme_pe] (fun _ => Except.ok demo_candles)
      "ACMEPE100").2 7 rfl).2.2 demo_candles ⟨10, 12, 120⟩ rfl rfl).2 (by decide) true
  exact h.2.mpr (Or.inl ⟨rfl, by norm_num⟩)

/-- Helper for C7: the notification test on the success branch. -/
theorem telegram_iff_check (S T L P Q : String) (M : String) :
    ((if has_check P || has_check Q then some M else none : Option String).isSome = true ↔
      ∃ a ∈ [(⟨S, T, L, P, Q⟩ : Alert)],
        (has_check a.put_result || has_check a.call_result) = true) := by
  cases hp : has_check P with
  | true => simp [hp]
  | false =>
      cases hq : has_check Q with
      | true => simp [hp, hq]
      | false => simp [hp, hq]

/-- C7 counterexample: a fully processed event (record persisted, HTTP 200)
whose legs all classify ❌ triggers *no* outbound notification — the channel
is invoked only for a subset of outcomes. -/
theorem C7_counterexample :
    (webhook no_match_env (some "ACME") "2026-10-12 10:00:00" 20261012).saved ≠ [] ∧
    (webhook no_match_env (some "ACME") "2026-10-12 10:00:00" 20261012).response =
      ("OK", 200) ∧
    (webhook no_match_env (some "ACME") "2026-10-12 10:00:00" 20261012).telegram = none := by
  refine ⟨by decide, rfl, by decide⟩

/-- C7 as amended: the notification channel is invoked if and only if a
persisted record of the event carries at least one ✅ mark in its put or call
results; all other processed events are persisted silently. -/
theorem C7_telegram_amended (env : KiteEnv) (symbol? : Option String)
    (time_str : String) (today : Nat) :
    (webhook env symbol? time_str today).telegram.isSome = true ↔
      ∃ a ∈ (webhook env symbol? time_str today).saved,
        (has_check a.put_result || has_check a.call_result) = true := by
  cases symbol? with
  | none => simp [webhook]
  | some symbol =>
      cases hl : env.ltp with
      | error e => simp [webhook, hl]
      | ok ltp =>
          cases hc : env.catalog with
          | error e => simp [webhook, hl, hc]
          | ok catalog =>
              cases hx : next_expiry catalog symbol today with
              | error e => simp [webhook, hl, hc, hx]
              | ok expiry =>
                  simp only [webhook, hl, hc, hx]
                  exact telegram_iff_check _ _ _ _ _ _

/-- Witness for C7 (amended): in the all-❌ environment the iff specialises
to "no notification". -/
theorem C7_telegram_amended_witness :
    (webhook no_match_env (some "ACME") "2026-10-12 10:00:00" 20261012).telegram.isSome =
        true ↔
      ∃ a ∈ (webhook no_match_env (some "ACME") "2026-10-12 10:00:00" 20261012).saved,
        (has_check a.put_result || has_check a.call_result) = true :=
  C7_telegram_amended no_match_env (some "ACME") "2026-10-12 10:00:00" 20261012

/-- Helper: on an ascending list, `find?` for "≥ today" yields the least
qualifying date. -/
theorem sorted_find_ge (today : Nat) :
    ∀ l : List Nat, l.Sorted (· ≤ ·) → ∀ d,
      l.find? (fun e => decide (today ≤ e)) = some d →
        d ∈ l ∧ today ≤ d ∧ ∀ e ∈ l, today ≤ e → d ≤ e := by
  intro l
  induction l with
  | nil => intro _ d h; simp at h
  | cons x t ih =>
      intro hs d h
      by_cases hx : today ≤ x
      · rw [List.find?_cons_of_pos _ (by simpa using hx)] at h
        obtain rfl : x = d := by simpa using h
        refine ⟨List.mem_cons_self x t, hx, ?_⟩
        intro e he _
        rcases List.mem_cons.1 he with rfl | he
        · exact le_refl e
        · exact List.rel_of_sorted_cons hs e he
      · rw [List.find?_cons_of_neg _ (by simpa using hx)] at h
        obtain ⟨hmem, hle, hmin⟩ := ih hs.of_cons d h
        refine ⟨List.mem_cons_of_mem x hmem, hle, ?_⟩
        intro e he hte
        rcases List.mem_cons.1 he with rfl | he
        · exact absurd hte hx
        · exact hmin e he hte

/-- Helper: the last element of a list is one of its elements. -/
theorem getLast?_mem_self {α : Type} : ∀ (l : List α) (d : α), l.getLast? = some d → d ∈ l := by
  intro l
  induction l with
  | nil => intro d hd; simp at hd
  | cons x t ih =>
      intro d hd
      cases t with
      | nil =>
          obtain rfl : x = d := by simpa using hd
          exact List.mem_cons_self x []
      | cons y u =>
          rw [List.getLast?_cons_cons] at hd
          exact List.mem_cons_of_mem x (ih d hd)

/-- Helper: on an ascending list, the last element is an upper bound. -/
theorem sorted_getLast_max :
    ∀ l : List Nat, l.Sorted (· ≤ ·) → ∀ d, l.getLast? = some d → ∀ e ∈ l, e ≤ d := by
  intro l
  induction l with
  | nil => intro _ d h; simp at h
  | cons x t ih =>
      intro hs d hd e he
      cases t with
      | nil =>
          obtain rfl : x = d := by simpa using hd
          obtain rfl : e = x := by simpa using he
          exact le_refl e
      | cons y u =>
          rw [List.getLast?_cons_cons] at hd
          have hdm : d ∈ y :: u := getLast?_mem_self _ d hd
          rcases List.mem_cons.1 he with rfl | he
          · exact le_trans (le_refl e) (List.rel_of_sorted_cons hs d hdm)
          · exact ih hs.of_cons d hd e he

/-- Helper: a matched underlying has at least one distinct expiry date. -/
theorem expiry_dates_ne_nil (catalog : List Instrument) (symbol : String)
    (h : chain_instruments catalog symbol ≠ []) : expiry_dates catalog symbol ≠ [] := by
  intro hnil
  apply h
  have hperm := List.perm_insertionSort (α := Nat) (· ≤ ·)
    (((chain_instruments catalog symbol).map Instrument.expiry).dedup)
  rw [expiry_dates] at hnil
  rw [hnil] at hperm
  have hd := (List.dedup_eq_nil _).1 hperm.symm.eq_nil
  exact List.map_eq_nil_iff.1 hd

/-- C4: for an underlying with at least one matching CALL/PUT contract,
`next_expiry` succeeds, returning a distinct expiry date of the match set
which is either the earliest date ≥ today, or — when every available date is
past — the latest available date. -/
theorem C4_next_expiry_resolution (catalog : List Instrument) (symbol : String)
    (today : Nat) (h : chain_instruments catalog symbol ≠ []) :
    ∃ d, next_expiry catalog symbol today = Except.ok d ∧
      d ∈ expiry_dates catalog symbol ∧
      ((today ≤ d ∧ ∀ e ∈ expiry_dates catalog symbol, today ≤ e → d ≤ e) ∨
       ((∀ e ∈ expiry_dates catalog symbol, e < today) ∧
        ∀ e ∈ expiry_dates catalog symbol, e ≤ d)) := by
  have hs : (expiry_dates catalog symbol).Sorted (· ≤ ·) :=
    List.sorted_insertionSort _ _
  have hne := expiry_dates_ne_nil catalog symbol h
  cases hfind : (expiry_dates catalog symbol).find? (fun e => decide (today ≤ e)) with
  | some d =>
      obtain ⟨hmem, hle, hmin⟩ := sorted_find_ge today _ hs d hfind
      refine ⟨d, ?_, hmem, Or.inl ⟨hle, hmin⟩⟩
      simp [next_expiry, hfind]
  | none =>
      have hall : ∀ e ∈ expiry_dates catalog symbol, e < today := by
        intro e he
        have := List.find?_eq_none.1 hfind e he
        simpa using this
      cases hlast : (expiry_dates catalog symbol).getLast? with
      | none => exact absurd (List.getLast?_eq_none_iff.1 hlast) hne
      | some d =>
          have hdm : d ∈ expiry_dates catalog symbol := getLast?_mem_self _ d hlast
          refine ⟨d, ?_, hdm, Or.inr ⟨hall, sorted_getLast_max _ hs d hlast⟩⟩
          simp [next_expiry, hfind, hlast]

/-- Witness for C4 on the three-strike demo catalog. -/
theorem C4_next_expiry_resolution_witness :
    ∃ d, next_expiry demo_catalog "ACME" 20261012 = Except.ok d ∧
      d ∈ expiry_dates demo_catalog "ACME" ∧
      ((20261012 ≤ d ∧ ∀ e ∈ expiry_dates demo_catalog "ACME", 20261012 ≤ e → d ≤ e) ∨
       ((∀ e ∈ expiry_dates demo_catalog "ACME", e < 20261012) ∧
        ∀ e ∈ expiry_dates demo_catalog "ACME", e ≤ d)) :=
  C4_next_expiry_resolution demo_catalog "ACME" 20261012 (by decide)

/-- Helper: `min_abs` picks an element of a non-empty list. -/
theorem min_abs_mem (spot : ℚ) : ∀ l : List ℚ, l ≠ [] → min_abs spot l ∈ l := by
  intro l
  induction l with
  | nil => intro hne; exact absurd rfl hne
  | cons x xs ih =>
      intro _
      cases xs with
      | nil => simp [min_abs]
      | cons y t =>
          simp only [min_abs]
          split
          · exact List.mem_cons_self _ _
          · exact List.mem_cons_of_mem x (ih (by simp))

/-- Helper: `min_abs` minimises the distance to `spot`. -/
theorem min_abs_le (spot : ℚ) :
    ∀ l : List ℚ, ∀ x ∈ l, |min_abs spot l - spot| ≤ |x - spot| := by
  intro l
  induction l with
  | nil => intro x hx; simp at hx
  | cons a xs ih =>
      intro x hx
      cases xs with
      | nil =>
          obtain rfl : x = a := by simpa using hx
          simp [min_abs]
      | cons y t =>
          simp only [min_abs]
          rcases List.mem_cons.1 hx with rfl | hx2
          · split
            · exact le_refl _
            · next hc => exact le_of_lt (lt_of_not_le hc)
          · split
            · next hc => exact le_trans hc (ih x hx2)
            · exact ih x hx2

/-- Helper: on an ascending list, `min_abs` is the *lowest* strike among the
tied minimisers (Python's `min` keeps the first, i.e. lowest, one). -/
theorem min_abs_first (spot : ℚ) :
    ∀ l : List ℚ, l.Sorted (· ≤ ·) → ∀ x ∈ l,
      |x - spot| = |min_abs spot l - spot| → min_abs spot l ≤ x := by
  intro l
  induction l with
  | nil => intro _ x hx; simp at hx
  | cons a xs ih =>
      intro hs x hx heq
      cases xs with
      | nil =>
          obtain rfl : x = a := by simpa using hx
          simp [min_abs]
      | cons y t =>
          simp only [min_abs] at heq ⊢
          by_cases hc : |a - spot| ≤ |min_abs spot (y :: t) - spot|
          · simp only [if_pos hc] at heq ⊢
            rcases List.mem_cons.1 hx with rfl | hx2
            · exact le_refl x
            · exact List.rel_of_sorted_cons hs x hx2
          · simp only [if_neg hc] at heq ⊢
            rcases List.mem_cons.1 hx with rfl | hx2
            · exact absurd (le_of_eq heq) hc
            · exact ih hs.of_cons x hx2 heq

/-- Helper: the distinct-strike list is ascending. -/
theorem chain_strikes_sorted (catalog : List Instrument) (sym : String) (exp_str : Nat) :
    (chain_strikes catalog sym exp_str).Sorted (· ≤ ·) :=
  List.sorted_insertionSort _ _

/-- Helper: the distinct-strike list has no duplicates. -/
theorem chain_strikes_nodup (catalog : List Instrument) (sym : String) (exp_str : Nat) :
    (chain_strikes catalog sym exp_str).Nodup :=
  ((List.perm_insertionSort _ _).nodup_iff).2 (List.nodup_dedup _)

/-- Helper: a non-empty match set yields a non-empty strike list. -/
theorem chain_strikes_ne_nil (catalog : List Instrument) (sym : String) (exp_str : Nat)
    (h : _matches catalog sym exp_str ≠ []) : chain_strikes catalog sym exp_str ≠ [] := by
  intro hnil
  apply h
  have hperm := List.perm_insertionSort (α := ℚ) (· ≤ ·)
    ((((_matches catalog sym exp_str)).map Instrument.strike).dedup)
  rw [chain_strikes] at hnil
  rw [hnil] at hperm
  exact List.map_eq_nil_iff.1 ((List.dedup_eq_nil _).1 hperm.symm.eq_nil)

/-- C1: on a non-empty match set, `strikes_from_chain` returns a contiguous
(infix) slice of the ascending distinct-strike list, strictly increasing, of
length at most `2·WIDTH + 1` (= 5), containing the ATM strike — the strike
minimising `|strike − spot|` with ties broken toward the lower strike. -/
theorem C1_strike_window (catalog : List Instrument) (sym : String) (exp_str : Nat)
    (spot : ℚ) (h : _matches catalog sym exp_str ≠ []) :
    (∃ pre post, pre ++ strikes_from_chain catalog sym exp_str spot ++ post =
        chain_strikes catalog sym exp_str) ∧
    (strikes_from_chain catalog sym exp_str spot).Sorted (· < ·) ∧
    (strikes_from_chain catalog sym exp_str spot).length ≤ 2 * WIDTH + 1 ∧
    min_abs spot (chain_strikes catalog sym exp_str) ∈
      strikes_from_chain catalog sym exp_str spot ∧
    (∀ s ∈ chain_strikes catalog sym exp_str,
      |min_abs spot (chain_strikes catalog sym exp_str) - spot| ≤ |s - spot|) ∧
    (∀ s ∈ chain_strikes catalog sym exp_str,
      |s - spot| = |min_abs spot (chain_strikes catalog sym exp_str) - spot| →
        min_abs spot (chain_strikes catalog sym exp_str) ≤ s) := by
  set l := chain_strikes catalog sym exp_str with hldef
  set atm := min_abs spot l with hatmdef
  set i := l.indexOf atm with hidef
  have hw : strikes_from_chain catalog sym exp_str spot =
      (l.take (i + WIDTH + 1)).drop (i - WIDTH) := by
    simp only [strikes_from_chain, if_neg h]
  have hmem : atm ∈ l := min_abs_mem spot l (chain_strikes_ne_nil catalog sym exp_str h)
  have hilen : i < l.length := List.indexOf_lt_length.2 hmem
  have hsorted : l.Sorted (· ≤ ·) := chain_strikes_sorted catalog sym exp_str
  have hnodup : l.Nodup := chain_strikes_nodup catalog sym exp_str
  rw [hw]
  refine ⟨?_, ?_, ?_, ?_, ?_, ?_⟩
  · refine ⟨l.take (i - WIDTH), l.drop (i + WIDTH + 1), ?_⟩
    have h2 : (l.take (i + WIDTH + 1)).take (i - WIDTH) = l.take (i - WIDTH) := by
      rw [List.take_take]
      congr 1
      omega
    calc l.take (i - WIDTH) ++ (l.take (i + WIDTH + 1)).drop (i - WIDTH) ++
          l.drop (i + WIDTH + 1)
        = (l.take (i + WIDTH + 1)).take (i - WIDTH) ++
            (l.take (i + WIDTH + 1)).drop (i - WIDTH) ++ l.drop (i + WIDTH + 1) := by
          rw [h2]
      _ = l.take (i + WIDTH + 1) ++ l.drop (i + WIDTH + 1) := by
          rw [List.take_append_drop]
      _ = l := List.take_append_drop _ _
  · have hlt : l.Sorted (· < ·) := List.Sorted.lt_of_le hsorted hnodup
    exact hlt.sublist ((List.drop_sublist _ _).trans (List.take_sublist _ _))
  · rw [List.length_drop, List.length_take]
    have hW : WIDTH = 2 := rfl
    omega
  · have hsome : ((l.take (i + WIDTH + 1)).drop (i - WIDTH))[i - (i - WIDTH)]? =
        some atm := by
      rw [List.getElem?_drop]
      have hidx : (i - WIDTH) + (i - (i - WIDTH)) = i := by omega
      rw [hidx, List.getElem?_take, if_pos (by omega)]
      rw [List.getElem?_eq_getElem hilen]
      exact congrArg some (List.getElem_indexOf hilen)
    exact List.getElem?_mem hsome
  · exact min_abs_le spot l
  · exact min_abs_first spot l hsorted

/-- Witness for C1 on the three-strike demo catalog. -/
theorem C1_strike_window_witness :
    (∃ pre post, pre ++ strikes_from_chain demo_catalog "ACME" 20261020 101 ++ post =
        chain_strikes demo_catalog "ACME" 20261020) ∧
    (strikes_from_chain demo_catalog "ACME" 20261020 101).Sorted (· < ·) ∧
    (strikes_from_chain demo_catalog "ACME" 20261020 101).length ≤ 2 * WIDTH + 1 ∧
    min_abs 101 (chain_strikes demo_catalog "ACME" 20261020) ∈
      strikes_from_chain demo_catalog "ACME" 20261020 101 ∧
    (∀ s ∈ chain_strikes demo_catalog "ACME" 20261020,
      |min_abs 101 (chain_strikes demo_catalog "ACME" 20261020) - 101| ≤ |s - 101|) ∧
    (∀ s ∈ chain_strikes demo_catalog "ACME" 20261020,
      |s - 101| = |min_abs 101 (chain_strikes demo_catalog "ACME" 20261020) - 101| →
        min_abs 101 (chain_strikes demo_catalog "ACME" 20261020) ≤ s) :=
  C1_strike_window demo_catalog "ACME" 20261020 101 (by decide)
